import Mathlib

/-!
Verification of the httpws repository (Go): a shallow embedding of the
request parser (`message.NewMessage`, `message.ReadFormData`), the HTTP
response content-type detection (`server.detectContentType`), the
WebSocket handshake accept-key computation (`server.UpgradeToWebSocket`),
the WebSocket frame codec (`server.readWebSocketFrame`,
`server.WriteWebSocketMessage`) and the message-assembly loop
(`server.ReadWebSocketMessage`).

Go byte slices and strings are modelled as `List Nat` (each element a
byte value < 256 in practice).  Go functions that can return an error or
panic are modelled with the `GoRes` result type: `.ok` for a normal
return, `.err` for a returned non-nil `error` (identified by its message
string), `.panicked` for a runtime panic.  Machine integers are modelled
as `Nat`/`Int` with explicit wrap-around where the Go code can overflow
(`int64`).
-/

namespace Httpws

set_option maxRecDepth 1000000
set_option maxHeartbeats 1000000

/-- Result of a Go computation: normal value, returned error, or panic. -/
inductive GoRes (α : Type) where
  | ok (a : α)
  | err (e : String)
  | panicked (msg : String)
deriving DecidableEq, Repr

/-- Byte list of an ASCII Lean string (Go `[]byte(s)` for ASCII data). -/
def bs (s : String) : List Nat := s.data.map Char.toNat

/-- `k` big-endian bytes of `n` (Go `binary.Write(.., BigEndian, uintK(n))`,
including the truncation performed by the `uintK` conversion). -/
def beBytes : Nat → Nat → List Nat
  | 0, _ => []
  | k + 1, n => (n / 256 ^ k % 256) :: beBytes k n

/-- Go `bytes.HasPrefix` / `strings.HasPrefix`: does `s` start with `p`? -/
def listStartsWith : List Nat → List Nat → Bool
  | _, [] => true
  | [], _ :: _ => false
  | a :: s, b :: p => a == b && listStartsWith s p

/-- ASCII white-space test used by Go `TrimSpace` (ASCII subset of
`unicode.IsSpace`: HT, LF, VT, FF, CR, SP). -/
def isSpaceB (b : Nat) : Bool := b == 32 || (9 ≤ b && b ≤ 13)

/-- Go `bytes.TrimSpace` / `strings.TrimSpace` on ASCII data. -/
def trimSpace (s : List Nat) : List Nat :=
  ((s.dropWhile isSpaceB).reverse.dropWhile isSpaceB).reverse

/-- Go `strings.Trim(s, cutset)` for a single-character cutset `c`. -/
def trimChar (c : Nat) (s : List Nat) : List Nat :=
  ((s.dropWhile (· == c)).reverse.dropWhile (· == c)).reverse

/-- Lookup in a Go map modelled as an association list (keys unique). -/
def mapLookup : List (List Nat × List Nat) → List Nat → Option (List Nat)
  | [], _ => none
  | (k, v) :: rest, key => if k = key then some v else mapLookup rest key

/-- Insertion into a Go map modelled as an association list:
overwrites the entry if the key is present, appends otherwise. -/
def mapInsert : List (List Nat × List Nat) → List Nat → List Nat → List (List Nat × List Nat)
  | [], key, v => [(key, v)]
  | (k, w) :: rest, key, v =>
    if k = key then (k, v) :: rest else (k, w) :: mapInsert rest key v

/-- Go `bufio.Reader.ReadBytes('\n')`: the shortest prefix ending in LF
(byte 10) together with the rest, or `none` when no LF occurs before the
end of the buffer (in which case Go returns the data read plus `io.EOF`,
and every caller in this repository returns that error). -/
def readBytesLF : List Nat → Option (List Nat × List Nat)
  | [] => none
  | b :: rest =>
    if b = 10 then some ([10], rest)
    else
      match readBytesLF rest with
      | none => none
      | some (l, r) => some (b :: l, r)

/-- Go `bytes.SplitN(s, sep, 2)` when `sep` occurs: the parts before and
after the first occurrence of `sep`; `none` when `sep` does not occur
(Go then returns the one-element slice `[s]`). -/
def splitOnce (sep : List Nat) : List Nat → Option (List Nat × List Nat)
  | [] =>
    if listStartsWith [] sep then some ([], ([] : List Nat).drop sep.length) else none
  | c :: rest =>
    if listStartsWith (c :: rest) sep then some ([], (c :: rest).drop sep.length)
    else
      match splitOnce sep rest with
      | none => none
      | some (a, b) => some (c :: a, b)

/-- Auxiliary for `splitAll`, with fuel (the fuel `s.length + 1` always
suffices for a non-empty separator, since every round consumes at least
one byte of `s`). -/
def splitAllAux (sep : List Nat) : Nat → List Nat → List (List Nat)
  | 0, s => [s]
  | fuel + 1, s =>
    match splitOnce sep s with
    | none => [s]
    | some (a, b) => a :: splitAllAux sep fuel b

/-- Go `bytes.Split` / `strings.Split` on a non-empty separator. -/
def splitAll (sep s : List Nat) : List (List Nat) := splitAllAux sep (s.length + 1) s

/-- Go `strconv.Atoi` digit accumulation: `none` unless the list is a
non-empty sequence of ASCII digits. -/
def digitsVal : List Nat → Option Nat
  | [] => none
  | ds => go ds 0
where
  go : List Nat → Nat → Option Nat
    | [], acc => some acc
    | d :: rest, acc =>
      if 48 ≤ d ∧ d ≤ 57 then go rest (acc * 10 + (d - 48)) else none

/-- Go `strconv.Atoi` on a 64-bit platform: optional sign, non-empty
digits, result within the `int64` range (out-of-range input returns a
non-nil error, modelled as `none`). -/
def goAtoi (s : List Nat) : Option Int :=
  let signed : Option Int :=
    match s with
    | 43 :: rest => (digitsVal rest).map (fun n => (n : Int))
    | 45 :: rest => (digitsVal rest).map (fun n => -(n : Int))
    | _ => (digitsVal s).map (fun n => (n : Int))
  match signed with
  | none => none
  | some v => if v < -(2 ^ 63) ∨ v > 2 ^ 63 - 1 then none else some v

/-- The parsed HTTP message (`message.Message`): start line, header map
(association list, last-write-wins), body. -/
structure Message where
  StartLine : List Nat
  Headers : List (List Nat × List Nat)
  Body : List Nat
deriving DecidableEq, Repr

/-- Header-reading loop of `message.NewMessage` (main.go 211–226), with
fuel (each round consumes the line read, at least one byte, so the fuel
`s.length + 1` used by `parseHeaders` always suffices).  A line of
exactly two bytes ends the loop; a line without a colon is the
`invalid header format` error; the value is the part after the first
colon with its last two bytes sliced off — Go panics when that part is
shorter than two bytes — and then trimmed. -/
def parseHeadersAux : Nat → List Nat → List (List Nat × List Nat) →
    GoRes (List (List Nat × List Nat) × List Nat)
  | 0, _, _ => .err "out of fuel"
  | fuel + 1, s, hs =>
    match readBytesLF s with
    | none => .err "EOF"
    | some (line, rest) =>
      if line.length = 2 then .ok (hs, rest)
      else
        match splitOnce [58] line with
        | none => .err "invalid header format"
        | some (name, v) =>
          if v.length < 2 then .panicked "slice bounds out of range"
          else
            parseHeadersAux fuel rest
              (mapInsert hs name (trimSpace (v.take (v.length - 2))))

/-- Header section of `message.NewMessage`. -/
def parseHeaders (s : List Nat) : GoRes (List (List Nat × List Nat) × List Nat) :=
  parseHeadersAux (s.length + 1) s []

/-- Body phase of `message.NewMessage` (main.go 228–243): no
`Content-Length` header means no body; otherwise the value must parse as
an integer (`strconv.Atoi`), Go's `make([]byte, length)` panics on a
negative length, and `io.ReadFull` fails with `io.EOF` (nothing
available) or `io.ErrUnexpectedEOF` (partial data) when fewer than
`length` bytes remain. -/
def finishBody (sl : List Nat) (hs : List (List Nat × List Nat)) (rest : List Nat) :
    GoRes Message :=
  match mapLookup hs (bs "Content-Length") with
  | none => .ok ⟨sl, hs, []⟩
  | some v =>
    match goAtoi v with
    | none => .err "invalid syntax"
    | some n =>
      if n < 0 then .panicked "makeslice: len out of range"
      else if rest.length < n.toNat then
        if rest.length = 0 then .err "EOF" else .err "unexpected EOF"
      else .ok ⟨sl, hs, rest.take n.toNat⟩

/-- `message.NewMessage` (main.go 198–244): start line up to LF with the
last two bytes sliced off (Go panics when the line is shorter than two
bytes, e.g. a lone LF), then the header loop, then the body phase. -/
def NewMessage (req : List Nat) : GoRes Message :=
  match readBytesLF req with
  | none => .err "EOF"
  | some (startLine, r1) =>
    if startLine.length < 2 then .panicked "slice bounds out of range"
    else
      match parseHeaders r1 with
      | .err e => .err e
      | .panicked m => .panicked m
      | .ok (hs, r2) => finishBody (startLine.take (startLine.length - 2)) hs r2

/-- `server.detectContentType` (server.go 94–112). -/
def detectContentType (body : List Nat) : String :=
  match body with
  | [] => "text/plain; charset=utf-8"
  | b :: _ =>
    if b = 60 then "text/html; charset=utf-8"
    else if b = 123 ∨ b = 91 then "application/json"
    else "application/octet-stream"

/-! ## Multipart form decoding (`message.ReadFormData`, `parseHeader`) -/

/-- Scan of the `;`-separated header tokens in `message.parseHeader`
(main.go 334–354): each trimmed non-empty token starting with `name=`
sets the name (quotes trimmed), one starting with `filename=` sets the
file name.  Later tokens overwrite earlier ones, as in the source loop. -/
def scanHeaderParts : List (List Nat) → List Nat × List Nat → List Nat × List Nat
  | [], acc => acc
  | part :: rest, (name, filename) =>
    let part := trimSpace part
    if part.length = 0 then scanHeaderParts rest (name, filename)
    else if listStartsWith part (bs "name=") then
      scanHeaderParts rest (trimChar 34 (part.drop 5), filename)
    else if listStartsWith part (bs "filename=") then
      scanHeaderParts rest (name, trimChar 34 (part.drop 9))
    else scanHeaderParts rest (name, filename)

/-- `message.parseHeader` (main.go 324–369): split the part header on
`;`, pick out `name=` and `filename=` tokens, fail when no name was
found, and prepend `<filename>\r\n` to the value (then trim) when a
filename is present.  (The `len(parts) == 0` check in the source is
dead: `strings.Split` never returns an empty slice.) -/
def parseHeader (header value : List Nat) : GoRes (List Nat × List Nat) :=
  let parts := splitAll [59] header
  if parts.length = 0 then .err "invalid header format"
  else
    match scanHeaderParts parts ([], []) with
    | (name, filename) =>
      if name = [] then .err "no name found"
      else if filename ≠ [] then
        .ok (name, trimSpace (filename ++ [13, 10] ++ value))
      else .ok (name, value)

/-- Per-part loop of `message.ReadFormData` (main.go 284–316) over the
form segments before the closing delimiter: trim each segment, skip
empty ones, split on the first CRLF into header and value, slice the
value's leading two bytes off (Go panics when it is shorter than two
bytes), parse the header and store the field. -/
def formLoop : List (List Nat) → List (List Nat × List Nat) →
    GoRes (List (List Nat × List Nat))
  | [], acc => .ok acc
  | part :: rest, acc =>
    let part := trimSpace part
    if part.length = 0 then formLoop rest acc
    else
      match splitOnce [13, 10] part with
      | none => .err "invalid part format"
      | some (header, val) =>
        if val.length < 2 then .panicked "slice bounds out of range"
        else
          match parseHeader header (val.drop 2) with
          | .err e => .err e
          | .panicked m => .panicked m
          | .ok (k, v) => formLoop rest (mapInsert acc k v)

/-- `message.ReadFormData` (main.go 257–320): extract the boundary as
the part after `boundary=` in `Content-Type` (the split must give
exactly two parts), split the body on `--<boundary>`, and process every
segment except the final one (the loop breaks at index
`len(form) - 1`). -/
def ReadFormData (m : Message) : GoRes (List (List Nat × List Nat)) :=
  match mapLookup m.Headers (bs "Content-Type") with
  | none => .err "no content type"
  | some ct =>
    let parts := splitAll (bs "boundary=") ct
    if parts.length ≠ 2 then .err "invalid content type"
    else
      let boundary := parts.getD 1 []
      let form := splitAll ([45, 45] ++ boundary) m.Body
      formLoop form.dropLast []

/-! ## Handshake accept key (`server.UpgradeToWebSocket`) -/

/-- The handshake GUID `server.WebSocketMagicString` (server.go 116). -/
def WebSocketMagicString : String := "258EAFA5-E914-47DA-95CA-C5AB0DC85B11"

/-- 32-bit truncation. -/
def w32 (x : Nat) : Nat := x % 4294967296

/-- 32-bit left rotation (for `x < 2^32`). -/
def rotl32 (n x : Nat) : Nat := (x <<< n ||| x >>> (32 - n)) % 4294967296

/-- Big-endian 32-bit words of a byte list (whole 4-byte groups). -/
def toWords : List Nat → List Nat
  | b0 :: b1 :: b2 :: b3 :: rest =>
    (b0 <<< 24 ||| b1 <<< 16 ||| b2 <<< 8 ||| b3) :: toWords rest
  | _ => []

/-- SHA-1 message-schedule extension: grow the word list by `k` words,
each the 1-bit rotation of the XOR of the words 3, 8, 14 and 16 places
back. -/
def extendW : Nat → List Nat → List Nat
  | 0, ws => ws
  | k + 1, ws =>
    let i := ws.length
    let w := rotl32 1 (ws.getD (i - 3) 0 ^^^ ws.getD (i - 8) 0 ^^^
      ws.getD (i - 14) 0 ^^^ ws.getD (i - 16) 0)
    extendW k (ws ++ [w])

/-- One SHA-1 round: round index `i`, schedule word `w`. -/
def sha1Round (st : Nat × Nat × Nat × Nat × Nat) (iw : Nat × Nat) :
    Nat × Nat × Nat × Nat × Nat :=
  match st, iw with
  | (a, b, c, d, e), (i, w) =>
    let f :=
      if i < 20 then b &&& c ||| (4294967295 ^^^ b) &&& d
      else if i < 40 then b ^^^ c ^^^ d
      else if i < 60 then b &&& c ||| b &&& d ||| c &&& d
      else b ^^^ c ^^^ d
    let k :=
      if i < 20 then 1518500249
      else if i < 40 then 1859775393
      else if i < 60 then 2400959708
      else 3395469782
    (w32 (rotl32 5 a + f + e + k + w), a, rotl32 30 b, c, d)

/-- SHA-1 compression of one 64-byte block into the running hash. -/
def processBlock (h : List Nat) (block : List Nat) : List Nat :=
  let ws := extendW 64 (toWords block)
  match ws.enum.foldl sha1Round
      (h.getD 0 0, h.getD 1 0, h.getD 2 0, h.getD 3 0, h.getD 4 0) with
  | (a, b, c, d, e) =>
    [w32 (h.getD 0 0 + a), w32 (h.getD 1 0 + b), w32 (h.getD 2 0 + c),
     w32 (h.getD 3 0 + d), w32 (h.getD 4 0 + e)]

/-- Split into 64-byte blocks (fuel is the list length, always enough). -/
def chunks64Aux : Nat → List Nat → List (List Nat)
  | 0, _ => []
  | fuel + 1, s =>
    if s = [] then [] else s.take 64 :: chunks64Aux fuel (s.drop 64)

/-- SHA-1 of a byte list (Go `crypto/sha1.Sum`), 20-byte digest. -/
def sha1 (msg : List Nat) : List Nat :=
  let padded := msg ++ 128 :: List.replicate ((119 - msg.length % 64) % 64) 0 ++
    beBytes 8 (8 * msg.length)
  let hs := (chunks64Aux (padded.length + 1) padded).foldl processBlock
    [1732584193, 4023233417, 2562383102, 271733878, 3285377520]
  (hs.map (beBytes 4)).foldr (· ++ ·) []

/-- One base64 alphabet character (value `0–63` to ASCII code). -/
def b64Char (n : Nat) : Nat :=
  if n < 26 then 65 + n
  else if n < 52 then 97 + (n - 26)
  else if n < 62 then 48 + (n - 52)
  else if n = 62 then 43
  else 47

/-- Standard base64 encoding with `=` padding
(Go `base64.StdEncoding.EncodeToString`). -/
def base64Encode : List Nat → List Nat
  | b0 :: b1 :: b2 :: rest =>
    b64Char (b0 >>> 2) :: b64Char ((b0 &&& 3) <<< 4 ||| b1 >>> 4) ::
    b64Char ((b1 &&& 15) <<< 2 ||| b2 >>> 6) :: b64Char (b2 &&& 63) ::
    base64Encode rest
  | [b0, b1] =>
    [b64Char (b0 >>> 2), b64Char ((b0 &&& 3) <<< 4 ||| b1 >>> 4),
     b64Char ((b1 &&& 15) <<< 2), 61]
  | [b0] => [b64Char (b0 >>> 2), b64Char ((b0 &&& 3) <<< 4), 61, 61]
  | [] => []

/-- The accept key computed by `server.UpgradeToWebSocket` (server.go
201–202): base64 of the SHA-1 digest of the client key concatenated with
the GUID. -/
def upgradeAcceptKey (key : List Nat) : List Nat :=
  base64Encode (sha1 (key ++ bs WebSocketMagicString))

/-- The `101 Switching Protocols` response bytes built by
`server.UpgradeToWebSocket` (server.go 204). -/
def upgradeResponseBytes (key : List Nat) : List Nat :=
  bs "HTTP/1.1 101 Switching Protocols\r\nUpgrade: websocket\r\nConnection: Upgrade\r\nSec-WebSocket-Accept: " ++
    upgradeAcceptKey key ++ bs "\r\n\r\n"

/-! ## WebSocket connection state -/

/-- The per-connection data bag of `server.Conn` (`Data
map[string]interface{}`); the WebSocket code only ever stores the
booleans `true`/`false` under the key `"websocket"`, so values are
modelled as `Bool`.  A Go `nil` map reads like an empty one, so the lazy
initialization in the source does not affect lookups. -/
structure Conn where
  data : List (String × Bool)
deriving DecidableEq, Repr

/-- Lookup in the connection data bag (`c.Data[key]`). -/
def connLookup : List (String × Bool) → String → Option Bool
  | [], _ => none
  | (k, v) :: rest, key => if k = key then some v else connLookup rest key

/-- `server.Conn.IsWebSocket` (server.go 159–167): `c.Data["websocket"]
== true`, where a missing key compares unequal to `true`. -/
def IsWebSocket (c : Conn) : Bool :=
  match connLookup c.data "websocket" with
  | some b => b
  | none => false

/-! ## WebSocket frame encoding (`server.WriteWebSocketMessage`) -/

/-- The frame bytes produced by `server.WriteWebSocketMessage`
(server.go 333–382): first byte `1<<7 | byte(opCode)` (fin always set),
second byte `0<<7 | length-marker` (mask bit never set), then the length
encoding chosen by the payload size — 7-bit for `< 126`, marker 126 plus
2 big-endian bytes for `≤ 0xFFFF`, marker 127 plus **4** big-endian
bytes for `≤ 0xFFFFFFFF`, marker 127 plus 8 big-endian bytes above —
then the raw payload. -/
def writeFrameBytes (opCode : Nat) (payload : List Nat) : List Nat :=
  let b0 := 128 ||| opCode % 256
  let n := payload.length
  if n < 126 then b0 :: n % 256 :: payload
  else if n ≤ 65535 then b0 :: 126 :: beBytes 2 n ++ payload
  else if n ≤ 4294967295 then b0 :: 127 :: beBytes 4 n ++ payload
  else b0 :: 127 :: beBytes 8 n ++ payload

/-- `server.Conn.WriteWebSocketMessage` (server.go 333–382): the guard
plus the frame bytes pushed to the transport (a perfect transport is
assumed, so `c.Conn.Write` itself does not fail).  Returns the Go
result and the bytes written. -/
def WriteWebSocketMessage (c : Conn) (opCode : Nat) (payload : List Nat) :
    GoRes Unit × List Nat :=
  if ¬ IsWebSocket c then (.err "not a websocket connection", [])
  else (.ok (), writeFrameBytes opCode payload)

/-! ## WebSocket frame decoding (`server.readWebSocketFrame`) -/

/-- Go `io.ReadFull(reader, buf)` with `k = len(buf)` on a byte stream:
`io.EOF` when nothing is available (and `k > 0`), `io.ErrUnexpectedEOF`
on a partial read; on failure the reader has consumed everything.
Returns the bytes read and the rest of the stream. -/
def readFull (k : Nat) (s : List Nat) : GoRes (List Nat × List Nat) :=
  if k ≤ s.length then .ok (s.take k, s.drop k)
  else if s.length = 0 then .err "EOF"
  else .err "unexpected EOF"

/-- Interpretation of a `Nat` (reduced mod `2^64`) as a Go `int64`,
two's complement. -/
def toInt64 (x : Nat) : Int :=
  if x % 2 ^ 64 < 2 ^ 63 then ((x % 2 ^ 64 : Nat) : Int)
  else ((x % 2 ^ 64 : Nat) : Int) - 2 ^ 64

/-- XOR-unmasking loop of `server.readWebSocketFrame` (server.go
323–327): byte `i` of the payload is XORed with mask byte `i % 4`. -/
def xorMask (mask : List Nat) : Nat → List Nat → List Nat
  | _, [] => []
  | i, p :: ps => (p ^^^ mask.getD (i % 4) 0) :: xorMask mask (i + 1) ps

/-- `server.readWebSocketFrame` (server.go 271–330) on a byte stream.
Returns `(fin, opCode, payload)` plus the rest of the stream.  The
payload length is an `int64` in the source: the 8-byte extended form is
assembled with `int64` shifts and ors, which wraps to a negative value
when the top bit of the first extended byte is set; the
`payloadLen > WebSocketMaxPayloadLen` guard compares against
`1<<63 - 1 = MaxInt64`; `make([]byte, payloadLen)` panics on a negative
length. -/
def readWebSocketFrame (s : List Nat) : GoRes (Bool × Nat × List Nat) × List Nat :=
  match s with
  | [] => (.err "EOF", [])
  | b1 :: s =>
    let fin : Bool := b1 &&& 128 != 0
    let opCode := b1 &&& 15
    match s with
    | [] => (.err "EOF", [])
    | b2 :: s =>
      let masked : Bool := b2 &&& 128 != 0
      let pl0 := b2 &&& 127
      -- the three length tiers; each tier yields the `int64` payloadLen
      let lenRes : GoRes (Int × List Nat) :=
        if pl0 = 126 then
          match s with
          | [] => .err "EOF"
          | e1 :: s =>
            match s with
            | [] => .err "EOF"
            | e2 :: s => .ok (((e1 <<< 8 ||| e2 : Nat) : Int), s)
        else if pl0 = 127 then
          match readFull 8 s with
          | .err e => .err e
          | .panicked m => .panicked m
          | .ok (b, s) =>
            match b with
            | [x0, x1, x2, x3, x4, x5, x6, x7] =>
              .ok (toInt64 (x0 <<< 56 ||| x1 <<< 48 ||| x2 <<< 40 ||| x3 <<< 32 |||
                x4 <<< 24 ||| x5 <<< 16 ||| x6 <<< 8 ||| x7), s)
            | _ => .err "impossible"
            -- a successful `io.ReadFull` into a `[8]byte` yields exactly
            -- 8 bytes, so the default branch is unreachable
        else .ok ((pl0 : Int), s)
      match lenRes with
      | .err e => (.err e, [])
      | .panicked m => (.panicked m, [])
      | .ok (payloadLen, s) =>
        if payloadLen > 2 ^ 63 - 1 then (.err "payload length exceeds limit", s)
        else
          let maskRes : GoRes (List Nat × List Nat) :=
            if masked then readFull 4 s else .ok ([], s)
          match maskRes with
          | .err e => (.err e, [])
          | .panicked m => (.panicked m, [])
          | .ok (mask, s) =>
            if payloadLen < 0 then (.panicked "makeslice: len out of range", s)
            else
              match readFull payloadLen.toNat s with
              | .err e => (.err e, [])
              | .panicked m => (.panicked m, [])
              | .ok (payload, s) =>
                if masked then (.ok (fin, opCode, xorMask mask 0 payload), s)
                else (.ok (fin, opCode, payload), s)

/-! ## WebSocket message assembly (`server.ReadWebSocketMessage`) -/

/-- Result of `server.Conn.ReadWebSocketMessage`: the returned triple
`(opCode, payload, error)` — `e = none` models a `nil` error, `some
"EOF"` models `io.EOF` — a propagated panic, or `blocked`: the
goroutine is deadlocked inside the call and never returns (the ping
branch, see `wsLoop`). -/
inductive WSRes where
  | ret (opCode : Nat) (payload : List Nat) (e : Option String)
  | panicked (msg : String)
  | blocked
deriving DecidableEq, Repr

/-- The read loop of `server.ReadWebSocketMessage` (server.go 232–265),
with fuel for the unbounded `for` (the source loops forever on a stream
that stays at EOF; `none` models running out of fuel).  State:
accumulated `opCode` (zero until the first frame with a non-zero opcode
arrives), accumulated `payload`, bytes written so far (pong replies),
and the remaining stream.  An `io.EOF` from `readWebSocketFrame` is NOT
returned: the source falls through with the zero values `fin = false,
op = 0, data = nil`, for which the body reduces to looping again with
everything unchanged.  A close frame returns `(op, nil, io.EOF)`.  A
ping frame calls `c.WriteWebSocketMessage(pong, nil)` (server.go 246)
while the read lock taken at server.go 220 is still held (it is only
released by `defer` on return): the write's first statement
`c.mu.Lock()` (server.go 335) on the same `sync.RWMutex` can never be
acquired, so the nested call blocks forever — the goroutine
self-deadlocks, no pong bytes ever reach the transport, and the loop
never continues; modelled as the `blocked` outcome with nothing
written.  A pong frame is skipped; otherwise the opcode is recorded if
none was, the data appended, and a set fin bit ends the loop. -/
def wsLoop (c : Conn) : Nat → Nat → List Nat → List Nat → List Nat →
    Option (WSRes × List Nat × List Nat)
  | 0, _, _, _, _ => none
  | fuel + 1, opCode, payload, written, stream =>
    match readWebSocketFrame stream with
    | (.panicked m, s) => some (.panicked m, written, s)
    | (.err e, s) =>
      if e = "EOF" then wsLoop c fuel opCode payload written s
      else some (.ret 0 [] (some e), written, s)
    | (.ok (fin, op, data), s) =>
      if op = 8 then some (.ret op [] (some "EOF"), written, s)
      else if op = 9 then
        -- the source calls c.WriteWebSocketMessage(pong, nil) here, but
        -- c.mu.Lock() inside it blocks forever under the read lock held
        -- by ReadWebSocketMessage: self-deadlock, nothing is written
        some (.blocked, written, s)
      else if op = 10 then wsLoop c fuel opCode payload written s
      else
        let opCode' := if opCode = 0 then op else opCode
        let payload' := payload ++ data
        if fin then some (.ret opCode' payload' none, written, s)
        else wsLoop c fuel opCode' payload' written s

/-- `server.Conn.ReadWebSocketMessage` (server.go 219–268): the
not-a-websocket guard returns before anything touches the transport
(stream returned unchanged, nothing written); otherwise the read loop
runs. -/
def ReadWebSocketMessage (c : Conn) (fuel : Nat) (stream : List Nat) :
    Option (WSRes × List Nat × List Nat) :=
  if ¬ IsWebSocket c then
    some (.ret 0 [] (some "not a websocket connection"), [], stream)
  else wsLoop c fuel 0 [] [] stream

/-! ## Client-side frame serialization (test harness, RFC 6455 / spec 4.4) -/

/-- The wire bytes of a well-formed unmasked frame as a peer would send
it, following the decoder's three-tier wire format (RFC 6455, spec
§4.4): fin bit and opcode in byte 0, mask bit clear, 7-bit length, or
marker 126 plus 2 big-endian bytes, or marker 127 plus 8 big-endian
bytes. -/
def clientFrameBytes (fin : Bool) (op : Nat) (p : List Nat) : List Nat :=
  ((if fin then 128 else 0) ||| op) ::
    (if p.length < 126 then [p.length]
     else if p.length < 65536 then 126 :: beBytes 2 p.length
     else 127 :: beBytes 8 p.length) ++ p

/-- Wire bytes of a fragmented message: every frame non-final except the
last one, serialized with `clientFrameBytes`. -/
def serializeFrames : List (Nat × List Nat) → List Nat
  | [] => []
  | [(op, p)] => clientFrameBytes true op p
  | (op, p) :: f :: rest => clientFrameBytes false op p ++ serializeFrames (f :: rest)

/-- Concatenation of the frames' payloads in frame order. -/
def concatPayloads : List (Nat × List Nat) → List Nat
  | [] => []
  | (_, p) :: rest => p ++ concatPayloads rest

/-! ## Helper lemmas on bytes, bit operations and streams -/

theorem take_len_append (l₁ l₂ : List Nat) : (l₁ ++ l₂).take l₁.length = l₁ := by
  induction l₁ with
  | nil => rfl
  | cons a l ih => simp [ih]

theorem drop_len_append (l₁ l₂ : List Nat) : (l₁ ++ l₂).drop l₁.length = l₂ := by
  induction l₁ with
  | nil => rfl
  | cons a l ih => simp [ih]

/-- High part shifted left or-ed with a small low part is their sum. -/
theorem hiLo (hi lo w : Nat) (hlo : lo < 2 ^ w) : hi <<< w ||| lo = 2 ^ w * hi + lo := by
  rw [Nat.shiftLeft_eq, Nat.mul_comm, ← Nat.mul_add_lt_is_or hlo]

theorem and128_eq_zero {x : Nat} (h : x < 128) : x &&& 128 = 0 := by
  have h7 : x.testBit 7 = false := Nat.testBit_lt_two_pow (by omega)
  have h2 : (2 : Nat) ^ 7 = 128 := by norm_num
  have := Nat.and_two_pow x 7
  rw [h7, h2] at this
  simpa using this

theorem and127_eq_mod (x : Nat) : x &&& 127 = x % 128 := by
  have h2 : (2 : Nat) ^ 7 = 128 := by norm_num
  have := Nat.and_pow_two_sub_one_eq_mod x 7
  rw [h2] at this
  norm_num at this ⊢
  exact this

/-- The first byte written by a client frame: the mask for the fin bit. -/
theorem hdr_and_128 (fin : Bool) (op : Nat) (h : op < 16) :
    ((((if fin then 128 else 0) ||| op) &&& 128) != 0) = fin := by
  cases fin <;> interval_cases op <;> decide

/-- The first byte written by a client frame: the opcode bits. -/
theorem hdr_and_15 (fin : Bool) (op : Nat) (h : op < 16) :
    ((if fin then 128 else 0) ||| op) &&& 15 = op := by
  cases fin <;> interval_cases op <;> decide

/-- Recombining the eight big-endian bytes of `n < 2^64` with the
decoder's shift/or chain gives back `n`. -/
theorem beCombine8 (n : Nat) (h : n < 2 ^ 64) :
    (n / 256 ^ 7 % 256) <<< 56 ||| (n / 256 ^ 6 % 256) <<< 48 |||
      (n / 256 ^ 5 % 256) <<< 40 ||| (n / 256 ^ 4 % 256) <<< 32 |||
      (n / 256 ^ 3 % 256) <<< 24 ||| (n / 256 ^ 2 % 256) <<< 16 |||
      (n / 256 ^ 1 % 256) <<< 8 ||| (n / 256 ^ 0 % 256) = n := by
  simp only [Nat.lor_assoc]
  rw [hiLo (n / 256 ^ 1 % 256) (n / 256 ^ 0 % 256) 8 (by omega)]
  rw [hiLo (n / 256 ^ 2 % 256) _ 16 (by omega)]
  rw [hiLo (n / 256 ^ 3 % 256) _ 24 (by omega)]
  rw [hiLo (n / 256 ^ 4 % 256) _ 32 (by omega)]
  rw [hiLo (n / 256 ^ 5 % 256) _ 40 (by omega)]
  rw [hiLo (n / 256 ^ 6 % 256) _ 48 (by omega)]
  rw [hiLo (n / 256 ^ 7 % 256) _ 56 (by omega)]
  omega

theorem readFull_exact (l₁ l₂ : List Nat) : readFull l₁.length (l₁ ++ l₂) = .ok (l₁, l₂) := by
  simp [readFull, take_len_append, drop_len_append]

theorem readFull_take (k : Nat) (l₁ l₂ : List Nat) (h : l₁.length = k) :
    readFull k (l₁ ++ l₂) = .ok (l₁, l₂) := by
  subst h; exact readFull_exact l₁ l₂

theorem toInt64_small {n : Nat} (h : n < 2 ^ 63) : toInt64 n = (n : Int) := by
  unfold toInt64
  rw [Nat.mod_eq_of_lt (by omega), if_pos (by omega)]

/-- The `int64` payload length can never exceed `WebSocketMaxPayloadLen
= 1<<63 - 1 = MaxInt64`: the guard in `readWebSocketFrame` is dead. -/
theorem toInt64_le : ∀ x : Nat, toInt64 x ≤ 2 ^ 63 - 1 := by
  intro x
  unfold toInt64
  split
  · omega
  · have : (x % 2 ^ 64 : Nat) < 2 ^ 64 := Nat.mod_lt _ (by norm_num)
    omega

/-! ## A well-formed client frame and its decoding -/

/-- `readWebSocketFrame` correctly decodes every well-formed unmasked
frame (any payload size below `2^63`, all three length tiers), leaving
the rest of the stream untouched. -/
theorem readFrame_client (fin : Bool) (op : Nat) (p rest : List Nat)
    (hop : op < 16) (hlen : p.length < 2 ^ 63) :
    readWebSocketFrame (clientFrameBytes fin op p ++ rest) = (.ok (fin, op, p), rest) := by
  by_cases h1 : p.length < 126
  · have hmask : p.length &&& 128 = 0 := and128_eq_zero (by omega)
    have hlow : p.length &&& 127 = p.length := by rw [and127_eq_mod]; omega
    simp only [clientFrameBytes, if_pos h1, List.cons_append, List.singleton_append,
      readWebSocketFrame, hdr_and_128 fin op hop, hdr_and_15 fin op hop, hmask, hlow]
    rw [if_neg (show ¬ p.length = 126 by omega), if_neg (show ¬ p.length = 127 by omega)]
    simp only [List.nil_append]
    rw [if_neg (show ¬ ((p.length : Nat) : Int) > 2 ^ 63 - 1 by omega)]
    simp only [show ((0 != 0) = true) = False by decide, if_false]
    rw [if_neg (show ¬ ((p.length : Nat) : Int) < 0 by omega)]
    simp only [Int.toNat_natCast, readFull_exact]
  · by_cases h2 : p.length < 65536
    · have hcomb : (p.length / 256 ^ 1 % 256) <<< 8 ||| p.length / 256 ^ 0 % 256 = p.length := by
        rw [hiLo (p.length / 256 ^ 1 % 256) (p.length / 256 ^ 0 % 256) 8 (by omega)]
        omega
      simp only [clientFrameBytes, if_neg h1, if_pos h2,
        show beBytes 2 p.length = [p.length / 256 ^ 1 % 256, p.length / 256 ^ 0 % 256] from rfl,
        List.cons_append, List.nil_append,
        readWebSocketFrame, hdr_and_128 fin op hop, hdr_and_15 fin op hop,
        show (126 &&& 128 : Nat) = 0 from by decide, show (126 &&& 127 : Nat) = 126 from by decide,
        if_true, hcomb]
      rw [if_neg (show ¬ ((p.length : Nat) : Int) > 2 ^ 63 - 1 by omega)]
      simp only [show ((0 != 0) = true) = False by decide, if_false]
      rw [if_neg (show ¬ ((p.length : Nat) : Int) < 0 by omega)]
      simp only [Int.toNat_natCast, readFull_exact]
    · have hw : (p.length / 256 ^ 7 % 256) <<< 56 ||| (p.length / 256 ^ 6 % 256) <<< 48 |||
          (p.length / 256 ^ 5 % 256) <<< 40 ||| (p.length / 256 ^ 4 % 256) <<< 32 |||
          (p.length / 256 ^ 3 % 256) <<< 24 ||| (p.length / 256 ^ 2 % 256) <<< 16 |||
          (p.length / 256 ^ 1 % 256) <<< 8 ||| p.length / 256 ^ 0 % 256 = p.length :=
        beCombine8 p.length (by omega)
      have hstream : clientFrameBytes fin op p ++ rest =
          ((if fin then 128 else 0) ||| op) :: 127 ::
            ([p.length / 256 ^ 7 % 256, p.length / 256 ^ 6 % 256, p.length / 256 ^ 5 % 256,
              p.length / 256 ^ 4 % 256, p.length / 256 ^ 3 % 256, p.length / 256 ^ 2 % 256,
              p.length / 256 ^ 1 % 256, p.length / 256 ^ 0 % 256] ++ (p ++ rest)) := by
        simp [clientFrameBytes, if_neg h1, if_neg h2,
          show beBytes 8 p.length = [p.length / 256 ^ 7 % 256, p.length / 256 ^ 6 % 256,
            p.length / 256 ^ 5 % 256, p.length / 256 ^ 4 % 256, p.length / 256 ^ 3 % 256,
            p.length / 256 ^ 2 % 256, p.length / 256 ^ 1 % 256, p.length / 256 ^ 0 % 256] from rfl]
      rw [hstream]
      simp only [readWebSocketFrame, hdr_and_128 fin op hop, hdr_and_15 fin op hop,
        show (127 &&& 128 : Nat) = 0 from by decide, show (127 &&& 127 : Nat) = 127 from by decide,
        show ¬ (127 : Nat) = 126 from by decide, if_false, if_true]
      rw [readFull_take 8
        [p.length / 256 ^ 7 % 256, p.length / 256 ^ 6 % 256, p.length / 256 ^ 5 % 256,
         p.length / 256 ^ 4 % 256, p.length / 256 ^ 3 % 256, p.length / 256 ^ 2 % 256,
         p.length / 256 ^ 1 % 256, p.length / 256 ^ 0 % 256] (p ++ rest) rfl]
      simp only [hw, toInt64_small hlen]
      rw [if_neg (show ¬ ((p.length : Nat) : Int) > 2 ^ 63 - 1 by omega)]
      simp only [show ((0 != 0) = true) = False by decide, if_false]
      rw [if_neg (show ¬ ((p.length : Nat) : Int) < 0 by omega)]
      simp only [Int.toNat_natCast, readFull_exact]

/-! ## Claim theorems -/

/-- Decoding marker 127 followed by the bytes `00 01 00 00` and four
further zero bytes (the start of a payload) misreads the 64-bit extended
length as `2^48` and fails with a short read. -/
theorem C1_decode_aux (t : List Nat) (ht : t.length < 281474976710656)
    (h0 : t.length ≠ 0) :
    readWebSocketFrame (129 :: 127 :: ([0, 1, 0, 0] ++ (0 :: 0 :: 0 :: 0 :: t))) =
      (.err "unexpected EOF", []) := by
  have hsplit : ([0, 1, 0, 0] : List Nat) ++ (0 :: 0 :: 0 :: 0 :: t) =
      [0, 1, 0, 0, 0, 0, 0, 0] ++ t := rfl
  simp only [readWebSocketFrame, show ((129 &&& 128 : Nat) != 0) = true from by decide,
    show (129 &&& 15 : Nat) = 1 from by decide,
    show ((127 &&& 128 : Nat) != 0) = false from by decide,
    show (127 &&& 127 : Nat) = 127 from by decide,
    show ¬(127 : Nat) = 126 from by decide, if_false, if_true, hsplit,
    readFull_take 8 [0, 1, 0, 0, 0, 0, 0, 0] t rfl]
  simp only [show toInt64 (0 <<< 56 ||| 1 <<< 48 ||| 0 <<< 40 ||| 0 <<< 32 ||| 0 <<< 24 |||
    0 <<< 16 ||| 0 <<< 8 ||| 0) = 281474976710656 from by decide]
  rw [if_neg (by decide)]
  simp only [Bool.false_eq_true, if_false]
  rw [if_neg (show ¬ (281474976710656 : Int) < 0 by decide)]
  rw [show Int.toNat 281474976710656 = 281474976710656 from rfl]
  simp only [readFull]
  rw [if_neg (by omega), if_neg h0]

/-- C1 (code bug): for a payload of 65536 bytes (first size of the
64-bit tier) the encoder emits marker 127 followed by a **4-byte**
big-endian length (`binary.Write(.., uint32(payloadLen))`), while the
decoder reads **8** extended-length bytes after marker 127.  Decoding
the encoder's own output misreads the length as `2^48` and fails with a
short read instead of round-tripping the frame. -/
theorem C1_roundtrip_fails_at_65536 :
    writeFrameBytes 1 (List.replicate 65536 0) =
      129 :: 127 :: ([0, 1, 0, 0] ++ List.replicate 65536 0) ∧
    readWebSocketFrame (writeFrameBytes 1 (List.replicate 65536 0)) =
      (.err "unexpected EOF", []) := by
  have h1 : writeFrameBytes 1 (List.replicate 65536 0) =
      129 :: 127 :: ([0, 1, 0, 0] ++ List.replicate 65536 0) := by
    unfold writeFrameBytes
    simp only [List.length_replicate]
    norm_num
    exact ⟨by decide, by rw [show beBytes 4 65536 = [0, 1, 0, 0] from by decide]; rfl⟩
  refine ⟨h1, ?_⟩
  rw [h1, show List.replicate 65536 (0 : Nat) = 0 :: 0 :: 0 :: 0 :: List.replicate 65532 0 by
    rw [show (65536 : Nat) = 4 + 65532 from rfl, List.replicate_add]; rfl]
  exact C1_decode_aux (List.replicate 65532 0)
    (by rw [List.length_replicate]; decide)
    (by rw [List.length_replicate]; decide)


/-- C9: for every response body, `detectContentType` returns
`text/html; charset=utf-8` when the first byte is `<` (60),
`application/json` when it is `{` (123) or `[` (91),
`text/plain; charset=utf-8` for an empty body, and
`application/octet-stream` otherwise. -/
theorem C9_detectContentType :
    detectContentType [] = "text/plain; charset=utf-8" ∧
    (∀ l : List Nat, detectContentType (60 :: l) = "text/html; charset=utf-8") ∧
    (∀ l : List Nat, detectContentType (123 :: l) = "application/json") ∧
    (∀ l : List Nat, detectContentType (91 :: l) = "application/json") ∧
    (∀ (b : Nat) (l : List Nat), b ≠ 60 → b ≠ 123 → b ≠ 91 →
      detectContentType (b :: l) = "application/octet-stream") := by
  refine ⟨rfl, fun l => rfl, fun l => rfl, fun l => rfl, ?_⟩
  intro b l h1 h2 h3
  simp [detectContentType, h1, h2, h3]

/-- Witness for C9: the `otherwise` branch evaluated at the byte `A`. -/
theorem C9_detectContentType_witness :
    detectContentType [65] = "application/octet-stream" :=
  C9_detectContentType.2.2.2.2 65 [] (by decide) (by decide) (by decide)

/-- C10: on a connection whose `websocket` flag is not `true`, both
`ReadWebSocketMessage` and `WriteWebSocketMessage` return the error
`not a websocket connection`, consuming nothing from the stream and
writing nothing. -/
theorem C10_not_websocket_guard (c : Conn) (fuel : Nat) (stream : List Nat)
    (op : Nat) (p : List Nat) (h : IsWebSocket c = false) :
    ReadWebSocketMessage c fuel stream =
      some (.ret 0 [] (some "not a websocket connection"), [], stream) ∧
    WriteWebSocketMessage c op p = (.err "not a websocket connection", []) := by
  constructor <;> simp [ReadWebSocketMessage, WriteWebSocketMessage, h]

/-- Witness for C10: a fresh connection (empty data bag). -/
theorem C10_not_websocket_guard_witness :
    ReadWebSocketMessage ⟨[]⟩ 3 [129, 0] =
      some (.ret 0 [] (some "not a websocket connection"), [], [129, 0]) ∧
    WriteWebSocketMessage ⟨[]⟩ 1 [7] = (.err "not a websocket connection", []) :=
  C10_not_websocket_guard ⟨[]⟩ 3 [129, 0] 1 [7] (by decide)

/-- C5: for the RFC 6455 sample key `dGhlIHNhbXBsZSBub25jZQ==`, the
accept key computed by `UpgradeToWebSocket` equals
`s3pPLMBiTxaQ9kYGzzhZRbK+xOo=`, and the 101 response echoes it in the
`Sec-WebSocket-Accept` header. -/
theorem C5_handshake_accept_key :
    upgradeAcceptKey (bs "dGhlIHNhbXBsZSBub25jZQ==") =
      bs "s3pPLMBiTxaQ9kYGzzhZRbK+xOo=" ∧
    upgradeResponseBytes (bs "dGhlIHNhbXBsZSBub25jZQ==") =
      bs "HTTP/1.1 101 Switching Protocols\r\nUpgrade: websocket\r\nConnection: Upgrade\r\nSec-WebSocket-Accept: s3pPLMBiTxaQ9kYGzzhZRbK+xOo=\r\n\r\n" := by
  constructor <;> decide

/-- C8: a two-part multipart body with a plain field `foo` and a file
part `bar` with filename `x.txt` decodes to a mapping containing both
keys, with the `bar` value starting with `x.txt` (filename prepended to
the content joined by CRLF, then trimmed). -/
theorem C8_form_decode :
    ReadFormData ⟨bs "POST /hello HTTP/1.1",
        [(bs "Content-Type", bs "multipart/form-data; boundary=XYZ")],
        bs "--XYZ\r\nContent-Disposition: form-data; name=\"foo\"\r\n\r\nhello\r\n--XYZ\r\nContent-Disposition: form-data; name=\"bar\"; filename=\"x.txt\"\r\n\r\nfilebytes\r\n--XYZ--\r\n"⟩ =
      .ok [(bs "foo", bs "hello"), (bs "bar", bs "x.txt\r\nfilebytes")] ∧
    mapLookup [(bs "foo", bs "hello"), (bs "bar", bs "x.txt\r\nfilebytes")]
        (bs "foo") = some (bs "hello") ∧
    mapLookup [(bs "foo", bs "hello"), (bs "bar", bs "x.txt\r\nfilebytes")]
        (bs "bar") = some (bs "x.txt\r\nfilebytes") ∧
    listStartsWith (bs "x.txt\r\nfilebytes") (bs "x.txt") = true := by
  refine ⟨by decide, by decide, by decide, by decide⟩

/-- C4 (code bug): `NewMessage` is claimed never to panic, but the
source panics on a `Content-Length` that parses as a negative integer
(`make([]byte, -1)`) and on a first line that is a lone bare LF
(`startLine[:len(startLine)-2]` with `len(startLine) = 1`). -/
theorem C4_parser_panics :
    NewMessage (bs "GET / HTTP/1.1\r\nContent-Length: -1\r\n\r\n") =
      .panicked "makeslice: len out of range" ∧
    NewMessage (bs "\n") = .panicked "slice bounds out of range" := by
  constructor <;> decide

/-- C2 (code bug): on a ping frame (opcode 9) with payload `[1, 2, 3]`
the read loop self-deadlocks — the nested
`WriteWebSocketMessage(pong, nil)` takes `c.mu.Lock()` under the read
lock held since entry and never returns — so no pong is sent at all
(nothing written), the loop does not continue, and the rest of the
stream is never read; moreover even the frame the source attempts to
send carries `nil`, not the ping's payload as claimed. -/
theorem C2_ping_deadlocks_no_pong :
    ReadWebSocketMessage ⟨[("websocket", true)]⟩ 2 [137, 3, 1, 2, 3, 129, 0] =
      some (.blocked, [], [129, 0]) ∧
    (writeFrameBytes 10 [] == writeFrameBytes 10 [1, 2, 3]) = false := by
  refine ⟨by decide, by decide⟩


/-- One iteration of the read loop on a data frame (opcode 1 or 2):
record the opcode if none was recorded, append the payload, stop on a
set fin bit. -/
theorem wsLoop_step_data (c : Conn) (accOp : Nat) (acc written : List Nat)
    (fuel : Nat) (fin : Bool) (op : Nat) (p srest : List Nat)
    (hop : op = 1 ∨ op = 2) (hlen : p.length < 2 ^ 63) :
    wsLoop c (fuel + 1) accOp acc written (clientFrameBytes fin op p ++ srest) =
      if fin then
        some (.ret (if accOp = 0 then op else accOp) (acc ++ p) none, written, srest)
      else wsLoop c fuel (if accOp = 0 then op else accOp) (acc ++ p) written srest := by
  simp only [wsLoop, readFrame_client fin op p srest (by rcases hop with h | h <;> omega) hlen]
  rcases hop with h | h <;> subst h <;> cases fin <;> simp

/-- The read loop consumes a run of data frames (opcodes 1 or 2), the
last one final, appending all payloads; a non-zero already-recorded
opcode is kept. -/
theorem wsLoop_data_frames (c : Conn) :
    ∀ (fs : List (Nat × List Nat)) (f₀ : Nat × List Nat) (accOp : Nat)
      (acc written : List Nat), accOp ≠ 0 →
      (∀ f ∈ f₀ :: fs, (f.1 = 1 ∨ f.1 = 2) ∧ f.2.length < 2 ^ 63) →
      wsLoop c (fs.length + 1) accOp acc written (serializeFrames (f₀ :: fs)) =
        some (.ret accOp (acc ++ concatPayloads (f₀ :: fs)) none, written, []) := by
  intro fs
  induction fs with
  | nil =>
    rintro ⟨op, p⟩ accOp acc written hacc hf
    obtain ⟨hop, hlen⟩ := hf (op, p) (by simp)
    rw [show serializeFrames [(op, p)] = clientFrameBytes true op p ++ [] by
      simp [serializeFrames]]
    rw [wsLoop_step_data c accOp acc written _ true op p [] hop hlen]
    simp [if_neg hacc, concatPayloads]
  | cons f fs ih =>
    rintro ⟨op, p⟩ accOp acc written hacc hf
    obtain ⟨hop, hlen⟩ := hf (op, p) (by simp)
    rw [show serializeFrames ((op, p) :: f :: fs) =
      clientFrameBytes false op p ++ serializeFrames (f :: fs) from rfl]
    rw [wsLoop_step_data c accOp acc written (f :: fs).length false op p
      (serializeFrames (f :: fs)) hop hlen]
    have hrest := ih f accOp (acc ++ p) written hacc
      (fun g hg => hf g (List.mem_cons_of_mem _ hg))
    simp [if_neg hacc, hrest, concatPayloads, List.append_assoc]


/-- C7: a sequence of data frames (any number of non-final frames
followed by one final frame) reassembles into a single message whose
payload is the concatenation of the frames' payloads in frame order and
whose opcode is the first frame's opcode, with nothing written back. -/
theorem C7_fragment_reassembly (c : Conn) (hc : IsWebSocket c = true)
    (op₁ : Nat) (p₁ : List Nat) (rest : List (Nat × List Nat))
    (hf : ∀ f ∈ (op₁, p₁) :: rest, (f.1 = 1 ∨ f.1 = 2) ∧ f.2.length < 2 ^ 63) :
    ReadWebSocketMessage c (rest.length + 1) (serializeFrames ((op₁, p₁) :: rest)) =
      some (.ret op₁ (concatPayloads ((op₁, p₁) :: rest)) none, [], []) := by
  obtain ⟨hop, hlen⟩ := hf (op₁, p₁) (by simp)
  unfold ReadWebSocketMessage
  rw [if_neg (by simp [hc])]
  cases rest with
  | nil =>
    rw [show serializeFrames [(op₁, p₁)] = clientFrameBytes true op₁ p₁ ++ [] by
      simp [serializeFrames]]
    rw [wsLoop_step_data c 0 [] [] _ true op₁ p₁ [] hop hlen]
    simp [concatPayloads]
  | cons f fs =>
    rw [show serializeFrames ((op₁, p₁) :: f :: fs) =
      clientFrameBytes false op₁ p₁ ++ serializeFrames (f :: fs) from rfl]
    rw [wsLoop_step_data c 0 [] [] (f :: fs).length false op₁ p₁
      (serializeFrames (f :: fs)) hop hlen]
    have hrest := wsLoop_data_frames c fs f op₁ p₁ []
      (by rcases hop with h | h <;> omega)
      (fun g hg => hf g (List.mem_cons_of_mem _ hg))
    simp [hrest, concatPayloads, List.append_assoc]

/-- Witness for C7: three non-final text frames followed by a final one
reassemble to `Hello`. -/
theorem C7_fragment_reassembly_witness :
    ReadWebSocketMessage ⟨[("websocket", true)]⟩ 4
        (serializeFrames [(1, [72, 101]), (1, [108]), (1, [108]), (1, [111])]) =
      some (.ret 1 [72, 101, 108, 108, 111] none, [], []) := by
  have := C7_fragment_reassembly ⟨[("websocket", true)]⟩ (by decide) 1 [72, 101]
    [(1, [108]), (1, [108]), (1, [111])] (by decide)
  simpa [concatPayloads] using this

/-- C3 (code bug): the max-payload guard compares an `int64` length
against `WebSocketMaxPayloadLen = 1<<63 - 1 = MaxInt64`, which no
`int64` can exceed, so the `payload length exceeds limit` error is
unreachable; a 64-bit extended length with the top bit set (here
`2^63`) wraps to a negative `int64` and `make([]byte, payloadLen)`
panics instead of failing with the payload-too-large error. -/
theorem C3_overlong_length_panics :
    readWebSocketFrame [129, 127, 128, 0, 0, 0, 0, 0, 0, 0] =
      (.panicked "makeslice: len out of range", []) ∧
    toInt64 (128 <<< 56) = -(2 ^ 63) ∧
    (∀ x : Nat, toInt64 x ≤ 2 ^ 63 - 1) :=
  ⟨by decide, by decide, toInt64_le⟩

/-- C6: a declared `Content-Length` exceeding the bytes remaining after
the header section makes `NewMessage` fail with the truncated-body
error (`io.EOF` when no byte is available, `io.ErrUnexpectedEOF`
otherwise); and whenever parsing succeeds with a declared
`Content-Length` of `n`, the returned body has exactly length `n`. -/
theorem C6_content_length :
    (∀ (req sl r1 : List Nat) (hs : List (List Nat × List Nat)) (r2 v : List Nat)
      (n : Int),
      readBytesLF req = some (sl, r1) → ¬ sl.length < 2 →
      parseHeaders r1 = .ok (hs, r2) →
      mapLookup hs (bs "Content-Length") = some v →
      goAtoi v = some n → (r2.length : Int) < n →
      NewMessage req = .err (if r2.length = 0 then "EOF" else "unexpected EOF")) ∧
    (∀ (req : List Nat) (m : Message) (v : List Nat) (n : Int),
      NewMessage req = .ok m →
      mapLookup m.Headers (bs "Content-Length") = some v →
      goAtoi v = some n → (m.Body.length : Int) = n) := by
  constructor
  · intro req sl r1 hs r2 v n h1 h2 h3 h4 h5 hlt
    unfold NewMessage
    rw [h1]
    simp only [if_neg h2, h3]
    simp only [finishBody, h4, h5]
    rw [if_neg (by omega), if_pos (by omega)]
    split <;> rfl
  · intro req m v n h hv hn
    unfold NewMessage at h
    split at h
    · cases h
    next sl r1 heq =>
      split at h
      · cases h
      · split at h
        · cases h
        · cases h
        next hs r2 hhs =>
          unfold finishBody at h
          split at h
          next hnone =>
            cases h
            simp only at hv
            rw [hnone] at hv
            cases hv
          next v' hsome =>
            split at h
            · cases h
            next n' hn' =>
              split at h
              · cases h
              · split at h
                · split at h <;> cases h
                next hge =>
                  cases h
                  simp only at hv hn ⊢
                  rw [hsome] at hv
                  cases hv
                  rw [hn'] at hn
                  cases hn
                  simp only [List.length_take]
                  omega

/-- Witness for C6: `Content-Length: 5` with a 2-byte body fails with a
short read; with a 5-byte body it succeeds and the body length is 5. -/
theorem C6_content_length_witness :
    NewMessage (bs "POST / HTTP/1.1\r\nContent-Length: 5\r\n\r\nab") =
      .err "unexpected EOF" ∧
    ((bs "hello").length : Int) = 5 := by
  constructor
  · have h := C6_content_length.1 (bs "POST / HTTP/1.1\r\nContent-Length: 5\r\n\r\nab")
      (bs "POST / HTTP/1.1\r\n") (bs "Content-Length: 5\r\n\r\nab")
      [(bs "Content-Length", bs "5")] (bs "ab") (bs "5") 5
      (by decide) (by decide) (by decide) (by decide) (by decide) (by decide)
    rw [show (if (bs "ab").length = 0 then "EOF" else "unexpected EOF") =
      "unexpected EOF" from by decide] at h
    exact h
  · exact C6_content_length.2 (bs "POST / HTTP/1.1\r\nContent-Length: 5\r\n\r\nhello")
      ⟨bs "POST / HTTP/1.1", [(bs "Content-Length", bs "5")], bs "hello"⟩
      (bs "5") 5 (by decide) (by decide) (by decide)

end Httpws
